import Mathlib

/-!
Verification of the latgraph lattice library.

This file gives a shallow embedding of the data model and the operations of
the latgraph repository (lattice.py and fileio.py) and proves, or refutes,
the frozen claims about them.

Modelling conventions:
  * Python floats are modelled as real numbers (`ℝ`).
  * Python ints are modelled as `Int` (site indices, neighbour ids).
  * A position is a `List ℝ` (2 or 3 coordinates).
  * Fallible code (raised exceptions) is modelled with `Except` / `Option`.
  * Python sequence indexing `xs[n]` wraps negative indices once
    (`xs[-1]` is the last element) and raises `IndexError` otherwise;
    this is captured by `pyIdx`.
-/

namespace Latgraph

/-- A single lattice site (class `Site` in lattice.py).
`attrs` models the free-form `_attributes` dict. -/
structure Site where
  idx : Int
  pos : List ℝ
  neighbours : List Int
  hopping : List ℝ
  attrs : List (String × String)

instance : Inhabited Site := ⟨⟨0, [], [], [], []⟩⟩

/-- A lattice (class `Lattice` in lattice.py): metadata plus the ordered
list of sites (storage order). -/
structure Lattice where
  name : String
  comment : String
  nt : Int
  sites : List Site

/-- Python sequence index semantics for a sequence of length `N`:
`0 ≤ n < N` verbatim, `-N ≤ n < 0` wraps to `n + N`, anything else is an
`IndexError` (`none`). -/
def pyIdx (N : Nat) (n : Int) : Option Nat :=
  if 0 ≤ n ∧ n < (N : Int) then some n.toNat
  else if -(N : Int) ≤ n ∧ n < 0 then some (n + N).toNat
  else none

/-- Model of `Lattice.check_consistency` from lattice.py: every site index must be in
`[0, N)` and every neighbour id must be one of the registered site indices.
The early returns of the Python loops are equivalent to the conjunction of
the two `all` passes. -/
def Lattice.check_consistency (lat : Lattice) : Bool :=
  (lat.sites.all fun s => decide (s.idx < (lat.sites.length : Int)) && decide (0 ≤ s.idx)) &&
  (lat.sites.all fun s => s.neighbours.all fun n => decide (n ∈ lat.sites.map Site.idx))

/-- C8: for every lattice in which some site's neighbour list contains an id
that is not the stored index of any site, `check_consistency` returns false. -/
theorem check_consistency_false_of_bad_neighbour (lat : Lattice)
    (h : ∃ s ∈ lat.sites, ∃ n ∈ s.neighbours, n ∉ lat.sites.map Site.idx) :
    lat.check_consistency = false := by
  rcases h with ⟨s, hs, n, hn, hbad⟩
  rw [Bool.eq_false_iff]
  intro htrue
  simp only [Lattice.check_consistency, Bool.and_eq_true, List.all_eq_true,
    decide_eq_true_eq] at htrue
  exact hbad (htrue.2 s hs n hn)

/-- Concrete lattice for the C8 witness: site 0 references neighbour id 5,
which is not the index of any site. -/
def exC8 : Lattice :=
  ⟨"", "", 0, [⟨0, [0, 0], [5], [1], []⟩, ⟨1, [1, 0], [0], [1], []⟩]⟩

/-- C8 witness: `check_consistency` evaluates to false on `exC8`. -/
theorem check_consistency_false_of_bad_neighbour_witness :
    (∃ s ∈ exC8.sites, ∃ n ∈ s.neighbours, n ∉ exC8.sites.map Site.idx) ∧
    exC8.check_consistency = false :=
  ⟨by decide, check_consistency_false_of_bad_neighbour exC8 (by decide)⟩

/-- C10: `check_consistency` checks only that site indices are in range and
that neighbour ids are registered indices; it does not check uniqueness of
the indices, so it returns true for any lattice satisfying those two
conditions (the witness below has two sites sharing index 0). -/
theorem check_consistency_true_of_in_range (lat : Lattice)
    (h1 : ∀ s ∈ lat.sites, 0 ≤ s.idx ∧ s.idx < (lat.sites.length : Int))
    (h2 : ∀ s ∈ lat.sites, ∀ n ∈ s.neighbours, n ∈ lat.sites.map Site.idx) :
    lat.check_consistency = true := by
  simp only [Lattice.check_consistency, Bool.and_eq_true, List.all_eq_true,
    Bool.and_eq_true, decide_eq_true_eq]
  exact ⟨fun s hs => ⟨(h1 s hs).2, (h1 s hs).1⟩, h2⟩

/-- Concrete lattice for the C10 witness: sites 0 and 1 both carry index 0
(index 2 is missing), all indices lie in `[0, 3)` and all neighbour ids are
registered. -/
def exC10 : Lattice :=
  ⟨"", "", 0, [⟨0, [0, 0], [1], [1], []⟩, ⟨0, [1, 0], [0], [1], []⟩,
               ⟨1, [2, 0], [0], [1], []⟩]⟩

/-- C10 witness: `check_consistency` returns true on `exC10` although two
sites share index 0 and no site has index 2. -/
theorem check_consistency_true_of_in_range_witness :
    (∀ s ∈ exC10.sites, 0 ≤ s.idx ∧ s.idx < (exC10.sites.length : Int)) ∧
    (∀ s ∈ exC10.sites, ∀ n ∈ s.neighbours, n ∈ exC10.sites.map Site.idx) ∧
    exC10.sites.map Site.idx = [0, 0, 1] ∧
    exC10.check_consistency = true :=
  ⟨by decide, by decide, by decide,
    check_consistency_true_of_in_range exC10 (by decide) (by decide)⟩

/-- Elementwise sum of two position vectors (numpy array addition). -/
def vadd (a b : List ℝ) : List ℝ := List.zipWith (· + ·) a b

/-- Sum of a list of position vectors, as computed by Python's
`sum(site.pos for site in self.sites)` (the scalar start value 0 broadcasts,
so the empty sum is degenerate and never used: `centre` divides by the
number of sites, which is nonzero whenever `label_graph` proceeds). -/
def vsum : List (List ℝ) → List ℝ
  | [] => []
  | p :: ps => ps.foldl vadd p

/-- Elementwise division of a position vector by a scalar. -/
noncomputable def vdiv (v : List ℝ) (c : ℝ) : List ℝ := v.map (· / c)

/-- Euclidean distance `np.linalg.norm(a - b)` between two position
vectors. -/
noncomputable def vdist (a b : List ℝ) : ℝ :=
  Real.sqrt (((List.zipWith (· - ·) a b).map fun x => x ^ 2).sum)

/-- Model of `np.arctan2 y x`: the argument of the complex number
`x + y*I`, which lies in `(-π, π]`. -/
noncomputable def arctan2 (y x : ℝ) : ℝ := Complex.arg ⟨x, y⟩

/-- Python float modulo `x % m` for `m > 0`: `x - m * ⌊x / m⌋`,
with result in `[0, m)`. -/
noncomputable def fmod (x m : ℝ) : ℝ := x - m * ⌊x / m⌋

/-- Model of `angle` from lattice.py:
`(arctan2(p2[1], p2[0]) - arctan2(p1[1], p1[0]) + pi) % (2*pi) - pi`. -/
noncomputable def angle (p1 p2 : List ℝ) : ℝ :=
  fmod (arctan2 (p2.getD 1 0) (p2.getD 0 0) - arctan2 (p1.getD 1 0) (p1.getD 0 0)
    + Real.pi) (2 * Real.pi) - Real.pi

/-- Model of `np.argmin`: index of the first occurrence of the minimum of a
nonempty list (0 on the empty list, where numpy raises). -/
noncomputable def argminL : List ℝ → Nat
  | [] => 0
  | [_] => 0
  | x :: y :: ys =>
    if (y :: ys).getD (argminL (y :: ys)) 0 < x then argminL (y :: ys) + 1 else 0

/-- Model of `np.argmax`: index of the first occurrence of the maximum of a
nonempty list (0 on the empty list, where numpy raises). -/
noncomputable def argmaxL : List ℝ → Nat
  | [] => 0
  | [_] => 0
  | x :: y :: ys =>
    if x < (y :: ys).getD (argmaxL (y :: ys)) 0 then argmaxL (y :: ys) + 1 else 0

/-- Model of `select_innermost` from lattice.py: index of the position
closest to the centre. -/
noncomputable def select_innermost (pos : List (List ℝ)) (centre : List ℝ) : Nat :=
  argminL (pos.map fun p => vdist centre p)

/-- Model of `select_anticlockwise` from lattice.py: index of the position
with the largest angle relative to the current position. -/
noncomputable def select_anticlockwise (pos : List (List ℝ)) (curpos : List ℝ) : Nat :=
  argmaxL (pos.map fun p => angle curpos p)

/-- Errors raised by lattice.py, with the exact exception messages kept in
`LatError.message` below. `emptyLattice` stands for the arithmetic error
Python hits when computing the centre of a lattice with no sites, and
`indexError` for an out-of-range sequence access. -/
inductive LatError where
  | emptyLattice : LatError
  | indexError : LatError
  | stuck (count : Nat) : LatError
  | unknownMethod (method : String) : LatError
deriving DecidableEq

/-- Message text of each error, mirroring the Python exception messages of
lattice.py (`KeyError` in `select_next`, `RuntimeError` in `label_graph`). -/
def LatError.message : LatError → String
  | .emptyLattice => "division by zero"
  | .indexError => "list index out of range"
  | .stuck n =>
      "Graph search got stuck. No neighbours to continue after labeling "
        ++ toString n ++ " sites"
  | .unknownMethod m =>
      "Unknown traveral method: " ++ m
        ++ ". Supported methods are: innermost, anticlockwise"

/-- Model of `select_next` from lattice.py: dispatch on the method string,
raising a `KeyError` for anything but the two supported methods. -/
noncomputable def select_next (method : String) (pos : List (List ℝ)) (cursite : Site)
    (centre : List ℝ) : Except LatError Nat :=
  if method = "innermost" then .ok (select_innermost pos centre)
  else if method = "anticlockwise" then .ok (select_anticlockwise pos cursite.pos)
  else .error (.unknownMethod method)

/-- The comprehension in `label_graph`:
`[(j, n) for j, n in enumerate(self.sites[cur].neighbours) if not visited[n]]`,
over an enumerated neighbour list. Each access `visited[n]` uses Python
index semantics (`pyIdx`); the returned pairs carry the enumeration index
`j` and the normalized (wrapped, in-range) site position `m` so that
`self.sites[n]`, `visited[n]` and `labels[n]` all agree with `m`. -/
def collectCands (visited : List Bool) : List (Nat × Int) → Except LatError (List (Nat × Nat))
  | [] => .ok []
  | (j, n) :: rest =>
    match pyIdx visited.length n with
    | none => .error .indexError
    | some m =>
      if visited.getD m false then collectCands visited rest
      else
        match collectCands visited rest with
        | .error e => .error e
        | .ok tail => .ok ((j, m) :: tail)

/-- State of the spiral walk in `label_graph`: the current site (as a
normalized position into the site list), the `visited` flags and the
`labels` array. -/
structure WalkState where
  cur : Nat
  visited : List Bool
  labels : List Int

/-- One iteration of the `for i in range(1, len(self.sites))` loop of
`label_graph`: collect the unvisited neighbours of the current site, raise
`RuntimeError` with count `i+1` if there are none (the `except ValueError`
branch), otherwise pick the next site with `select_next` and label it `i`.
Python keeps `cur` as the raw neighbour id and relies on wrap-around
indexing; the model stores the equivalent normalized position. -/
noncomputable def labelStep (lat : Lattice) (method : String) (cen : List ℝ)
    (i : Nat) (st : WalkState) : Except LatError WalkState :=
  match collectCands st.visited (lat.sites.getD st.cur default).neighbours.enum with
  | .error e => .error e
  | .ok kept =>
    if kept.isEmpty then .error (.stuck (i + 1))
    else
      match select_next method (kept.map fun jm => (lat.sites.getD jm.2 default).pos)
          (lat.sites.getD st.cur default) cen with
      | .error e => .error e
      | .ok r =>
        .ok ⟨(kept.getD r (0, 0)).2,
             st.visited.set (kept.getD r (0, 0)).2 true,
             st.labels.set (kept.getD r (0, 0)).2 (Int.ofNat i)⟩

/-- The whole labelling loop of `label_graph`, iterated over the list of
labels still to assign (`range(1, len(self.sites))`). -/
noncomputable def labelLoop (lat : Lattice) (method : String) (cen : List ℝ) :
    List Nat → WalkState → Except LatError WalkState
  | [], st => .ok st
  | i :: is, st =>
    match labelStep lat method cen i st with
    | .error e => .error e
    | .ok st' => labelLoop lat method cen is st'

/-- Model of `Lattice.centre` from lattice.py: the arithmetic mean of all
site positions. -/
noncomputable def Lattice.centre (lat : Lattice) : List ℝ :=
  vdiv (vsum (lat.sites.map Site.pos)) (lat.sites.length : ℝ)

/-- Initial state of the spiral walk in `label_graph`: distances of all
sites to the centre, start at the first site of minimal distance
(`np.argmin`), label it 0 and mark it visited. -/
noncomputable def Lattice.startState (lat : Lattice) : WalkState :=
  ⟨argminL (lat.sites.map fun s => vdist lat.centre s.pos),
   (List.replicate lat.sites.length false).set
     (argminL (lat.sites.map fun s => vdist lat.centre s.pos)) true,
   (List.replicate lat.sites.length 0).set
     (argminL (lat.sites.map fun s => vdist lat.centre s.pos)) 0⟩

/-- Model of `Lattice.label_graph` from lattice.py: the spiral walk that
produces the list of new labels, indexed by site position. `np.empty` is
modelled by a zero-initialized label array; on success every entry is
overwritten exactly once, so the initial values are never observable. -/
noncomputable def Lattice.label_graph (lat : Lattice) (method : String) :
    Except LatError (List Int) :=
  if lat.sites.length = 0 then .error .emptyLattice
  else
    match labelLoop lat method lat.centre (List.range' 1 (lat.sites.length - 1))
        lat.startState with
    | .error e => .error e
    | .ok st => .ok st.labels

/-! Helper lemmas about list access and update. -/

theorem getD_set_self {α : Type} (l : List α) (m : Nat) (a d : α) (h : m < l.length) :
    (l.set m a).getD m d = a := by
  rw [List.getD_eq_getElem?_getD, List.getElem?_set_self h]
  rfl

theorem getD_set_ne {α : Type} (l : List α) (m k : Nat) (a d : α) (h : m ≠ k) :
    (l.set m a).getD k d = l.getD k d := by
  rw [List.getD_eq_getElem?_getD, List.getElem?_set_ne h, ← List.getD_eq_getElem?_getD]

theorem getD_replicate {α : Type} (n k : Nat) (a d : α) (h : k < n) :
    (List.replicate n a).getD k d = a := by
  rw [List.getD_eq_getElem?_getD, List.getElem?_replicate]
  simp [h]

theorem map_getD_range {α : Type} (l : List α) (d : α) :
    (List.range l.length).map (fun i => l.getD i d) = l := by
  induction l with
  | nil => rfl
  | cons a l ih =>
    rw [List.length_cons, List.range_succ_eq_map, List.map_cons, List.map_map]
    refine congrArg (a :: ·) ?_
    have hfun : ∀ i ∈ List.range l.length,
        ((fun i => (a :: l).getD i d) ∘ Nat.succ) i = l.getD i d := fun i _ => rfl
    rw [List.map_congr_left hfun, ih]

theorem filterMap_eq_map_of_some {α β : Type} (f : α → Option β) (g : α → β)
    (L : List α) (h : ∀ a ∈ L, f a = some (g a)) : L.filterMap f = L.map g := by
  rw [List.filterMap_congr h]
  exact congrFun (List.filterMap_eq_map g) L

theorem length_filterMap_lt_of_none {α β : Type} (f : α → Option β) (L : List α)
    (m : α) (hm : m ∈ L) (hfm : f m = none) :
    (L.filterMap f).length < L.length := by
  obtain ⟨s, t, rfl⟩ := List.append_of_mem hm
  have hcons : List.filterMap f (m :: t) = List.filterMap f t := by
    rw [List.filterMap_cons, hfm]
  rw [List.filterMap_append, hcons, List.length_append, List.length_append,
    List.length_cons]
  have hs := List.length_filterMap_le f s
  have ht := List.length_filterMap_le f t
  omega

/-! Helper lemmas about the labelling machinery. -/

theorem argminL_lt_length : ∀ (l : List ℝ), l ≠ [] → argminL l < l.length
  | [], h => absurd rfl h
  | [_], _ => by simp [argminL]
  | _ :: y :: ys, _ => by
    rw [argminL]
    split
    · exact Nat.succ_lt_succ (argminL_lt_length (y :: ys) (by simp))
    · simp

theorem argmaxL_lt_length : ∀ (l : List ℝ), l ≠ [] → argmaxL l < l.length
  | [], h => absurd rfl h
  | [_], _ => by simp [argmaxL]
  | _ :: y :: ys, _ => by
    rw [argmaxL]
    split
    · exact Nat.succ_lt_succ (argmaxL_lt_length (y :: ys) (by simp))
    · simp

theorem select_next_ok_lt {method : String} {pos : List (List ℝ)} {cursite : Site}
    {centre : List ℝ} {r : Nat} (h : select_next method pos cursite centre = .ok r)
    (hpos : pos ≠ []) : r < pos.length := by
  unfold select_next at h
  split at h
  · cases h
    have := argminL_lt_length (pos.map fun p => vdist centre p) (by simpa using hpos)
    simpa [select_innermost] using this
  · split at h
    · cases h
      have := argmaxL_lt_length (pos.map fun p => angle cursite.pos p) (by simpa using hpos)
      simpa [select_anticlockwise] using this
    · cases h

theorem pyIdx_lt {N : Nat} {n : Int} {m : Nat} (h : pyIdx N n = some m) : m < N := by
  unfold pyIdx at h
  split at h
  · rename_i hc
    cases h
    omega
  · split at h
    · rename_i hc
      cases h
      omega
    · cases h

theorem collectCands_ok_mem {visited : List Bool} :
    ∀ {l : List (Nat × Int)} {ks : List (Nat × Nat)},
      collectCands visited l = .ok ks →
      ∀ p ∈ ks, p.2 < visited.length ∧ visited.getD p.2 false = false
  | [], ks, h => by
    cases h
    intro p hp
    cases hp
  | (j, n) :: rest, ks, h => by
    rw [collectCands] at h
    split at h
    · cases h
    · rename_i m hm
      split at h
      · exact collectCands_ok_mem h
      · rename_i hvis
        split at h
        · cases h
        · rename_i tail htail
          cases h
          intro p hp
          rcases List.mem_cons.mp hp with hph | hpt
          · subst hph
            exact ⟨pyIdx_lt hm, by simpa using hvis⟩
          · exact collectCands_ok_mem htail p hpt

theorem labelStep_ok {lat : Lattice} {method : String} {cen : List ℝ} {i : Nat}
    {st st' : WalkState} (h : labelStep lat method cen i st = .ok st') :
    ∃ m, m < st.visited.length ∧ st.visited.getD m false = false ∧
      st'.cur = m ∧ st'.visited = st.visited.set m true ∧
      st'.labels = st.labels.set m (Int.ofNat i) := by
  unfold labelStep at h
  split at h
  · cases h
  · rename_i kept hkept
    split at h
    · cases h
    · rename_i hne
      split at h
      · cases h
      · rename_i r hr
        cases h
        have hkne : kept ≠ [] := by
          intro hnil
          rw [hnil] at hne
          exact hne rfl
        have hrlt : r < kept.length := by
          have := select_next_ok_lt hr (by simpa using hkne)
          simpa using this
        have hmem : kept.getD r (0, 0) ∈ kept := by
          rw [List.getD_eq_getElem?_getD, List.getElem?_eq_getElem hrlt]
          exact List.getElem_mem hrlt
        obtain ⟨h1, h2⟩ := collectCands_ok_mem hkept _ hmem
        exact ⟨(kept.getD r (0, 0)).2, h1, h2, rfl, rfl, rfl⟩

/-- The multiset of labels of already-visited sites: for each visited site
position, the label stored for it. -/
def visLabels (visited : List Bool) (labels : List Int) : List Int :=
  (List.range visited.length).filterMap fun m =>
    if visited.getD m false then some (labels.getD m 0) else none

theorem filterMap_update_perm {m : Nat} {i : Int} (f g : Nat → Option Int) :
    ∀ (L : List Nat), L.Nodup → m ∈ L →
      f m = none → g m = some i → (∀ k ∈ L, k ≠ m → g k = f k) →
      (L.filterMap g).Perm (i :: L.filterMap f)
  | [], _, hm, _, _, _ => absurd hm (List.not_mem_nil m)
  | a :: L, hnd, hm, hfm, hgm, hfg => by
    rcases List.mem_cons.mp hm with hma | hmL
    · subst hma
      have hmnot : m ∉ L := (List.nodup_cons.mp hnd).1
      have hcongr : L.filterMap g = L.filterMap f :=
        List.filterMap_congr fun k hk =>
          hfg k (List.mem_cons_of_mem m hk) (fun hkm => hmnot (hkm ▸ hk))
      rw [List.filterMap_cons, List.filterMap_cons, hgm, hfm, hcongr]
    · have hga : g a = f a :=
        hfg a (List.mem_cons_self a L) (fun ham => by
          rw [ham] at hnd
          exact (List.nodup_cons.mp hnd).1 hmL)
      have ih := filterMap_update_perm f g L (List.nodup_cons.mp hnd).2 hmL hfm hgm
        (fun k hk hkm => hfg k (List.mem_cons_of_mem a hk) hkm)
      rw [List.filterMap_cons, List.filterMap_cons, hga]
      cases hfa : f a with
      | none => exact ih
      | some v =>
        exact ((ih.cons v).trans (List.Perm.swap i v _))

theorem visLabels_set_perm {visited : List Bool} {labels : List Int} {m : Nat} {i : Int}
    (hmv : m < visited.length) (hml : m < labels.length)
    (hunv : visited.getD m false = false) :
    (visLabels (visited.set m true) (labels.set m i)).Perm (i :: visLabels visited labels) := by
  unfold visLabels
  rw [List.length_set]
  refine filterMap_update_perm _ _ (List.range visited.length) (List.nodup_range _)
    (List.mem_range.mpr hmv) ?_ ?_ ?_
  · rw [hunv]
    simp
  · rw [getD_set_self visited m true false hmv]
    simp only [if_true]
    rw [getD_set_self labels m i 0 hml]
  · intro k _ hkm
    rw [getD_set_ne visited m k true false (Ne.symm hkm),
      getD_set_ne labels m k i 0 (Ne.symm hkm)]

theorem visLabels_start_perm (N c : Nat) (h : c < N) :
    (visLabels ((List.replicate N false).set c true)
      ((List.replicate N (0 : Int)).set c (0 : Int))).Perm [(0 : Int)] := by
  have hbase : visLabels (List.replicate N false) (List.replicate N (0 : Int)) = [] := by
    unfold visLabels
    rw [List.filterMap_eq_nil_iff]
    intro a ha
    rw [getD_replicate N a false false (by simpa using List.mem_range.mp ha)]
    simp
  have hset := @visLabels_set_perm (List.replicate N false) (List.replicate N (0 : Int))
    c 0 (by simpa using h) (by simpa using h) (getD_replicate N c false false h)
  rw [hbase] at hset
  exact hset

theorem labelLoop_inv (lat : Lattice) (method : String) (cen : List ℝ) (N : Nat) :
    ∀ (k i : Nat) (st st' : WalkState),
      labelLoop lat method cen (List.range' i k) st = .ok st' →
      st.visited.length = N → st.labels.length = N →
      (visLabels st.visited st.labels).Perm ((List.range i).map Int.ofNat) →
      st'.visited.length = N ∧ st'.labels.length = N ∧
        (visLabels st'.visited st'.labels).Perm ((List.range (i + k)).map Int.ofNat)
  | 0, i, st, st', h, hv, hl, hperm => by
    rw [List.range'] at h
    rw [labelLoop] at h
    cases h
    exact ⟨hv, hl, by simpa using hperm⟩
  | k + 1, i, st, st', h, hv, hl, hperm => by
    rw [List.range'_succ] at h
    rw [labelLoop] at h
    split at h
    · cases h
    · rename_i st₁ hstep
      obtain ⟨m, hmlt, hunv, _, hvis₁, hlab₁⟩ := labelStep_ok hstep
      have hperm₁ : (visLabels st₁.visited st₁.labels).Perm
          ((List.range (i + 1)).map Int.ofNat) := by
        rw [hvis₁, hlab₁]
        refine (visLabels_set_perm hmlt (by omega) hunv).trans ?_
        rw [List.range_succ, List.map_append]
        exact ((hperm.cons (Int.ofNat i)).trans
          (List.perm_append_singleton (Int.ofNat i) _).symm)
      have := labelLoop_inv lat method cen N k (i + 1) st₁ st' h
        (by rw [hvis₁, List.length_set, hv]) (by rw [hlab₁, List.length_set, hl]) hperm₁
      refine ⟨this.1, this.2.1, ?_⟩
      have harith : i + 1 + k = i + (k + 1) := by omega
      rw [← harith]
      exact this.2.2

set_option maxHeartbeats 1000000 in
/-- Shared fact behind claim C1: whenever `label_graph` returns successfully,
the returned label list is a permutation of `0, ..., N-1`. -/
theorem label_graph_ok_perm (lat : Lattice) (method : String) (ls : List Int)
    (h : lat.label_graph method = .ok ls) :
    ls.Perm ((List.range lat.sites.length).map Int.ofNat) := by
  unfold Lattice.label_graph at h
  split at h
  · cases h
  · rename_i hN
    split at h
    · cases h
    · rename_i st hloop
      cases h
      have hNpos : 0 < lat.sites.length := Nat.pos_of_ne_zero hN
      have hradii : (lat.sites.map fun s => vdist lat.centre s.pos) ≠ [] := by
        simp only [ne_eq, List.map_eq_nil_iff]
        intro hnil
        rw [hnil] at hNpos
        simp at hNpos
      have hclt : argminL (lat.sites.map fun s => vdist lat.centre s.pos)
          < lat.sites.length := by
        have := argminL_lt_length _ hradii
        simpa using this
      have hvis0 : lat.startState.visited.length = lat.sites.length := by
        simp [Lattice.startState]
      have hlab0 : lat.startState.labels.length = lat.sites.length := by
        simp [Lattice.startState]
      have hperm0 : (visLabels lat.startState.visited lat.startState.labels).Perm
          ((List.range 1).map Int.ofNat) := by
        have hstart := visLabels_start_perm lat.sites.length
          (argminL (lat.sites.map fun s => vdist lat.centre s.pos)) (by exact hclt)
        have hrange : (List.range 1).map Int.ofNat = [(0 : Int)] := rfl
        rw [hrange]
        simp only [Lattice.startState]
        exact hstart
      obtain ⟨hvisN, hlabN, hpermN⟩ := labelLoop_inv lat method lat.centre
        lat.sites.length (lat.sites.length - 1) 1 lat.startState st (by exact hloop)
        (by exact hvis0) (by exact hlab0) (by exact hperm0)
      have harith : 1 + (lat.sites.length - 1) = lat.sites.length := by omega
      rw [harith] at hpermN
      have hlen : (visLabels st.visited st.labels).length = lat.sites.length := by
        rw [hpermN.length_eq]
        simp
      have hall : ∀ m ∈ List.range st.visited.length, st.visited.getD m false = true := by
        intro m hm
        by_contra hfalse
        have hgf : st.visited.getD m false = false := Bool.eq_false_iff.mpr hfalse
        have hnone : (if st.visited.getD m false then some (st.labels.getD m 0) else none)
            = none := by
          rw [hgf]
          simp
        have := length_filterMap_lt_of_none
          (fun m => if st.visited.getD m false then some (st.labels.getD m 0) else none)
          (List.range st.visited.length) m hm hnone
        rw [show ((List.range st.visited.length).filterMap fun m =>
            if st.visited.getD m false then some (st.labels.getD m 0) else none)
          = visLabels st.visited st.labels from rfl] at this
        rw [hlen, List.length_range, hvisN] at this
        omega
      have hmap : visLabels st.visited st.labels
          = (List.range st.visited.length).map (fun m => st.labels.getD m 0) := by
        unfold visLabels
        exact filterMap_eq_map_of_some _ _ _ (fun a ha => by rw [hall a ha]; simp)
      have hlabels : visLabels st.visited st.labels = st.labels := by
        rw [hmap, hvisN, ← hlabN, map_getD_range]
      rw [← hlabels]
      exact hpermN

/-! The relabel operation (Site.relabel and Lattice.relabel in lattice.py). -/

/-- Python list lookup `labels[n]` with wrap-around semantics; `none` models
an `IndexError`. -/
def pyGetI (labels : List Int) (n : Int) : Option Int :=
  match pyIdx labels.length n with
  | none => none
  | some m => some (labels.getD m 0)

/-- The comprehension `[labels[neigh] for neigh in self.neighbours]` of
`Site.relabel`, failing on the first out-of-range access. -/
def mapLabels (labels : List Int) : List Int → Option (List Int)
  | [] => some []
  | n :: rest =>
    match pyGetI labels n with
    | none => none
    | some v =>
      match mapLabels labels rest with
      | none => none
      | some vs => some (v :: vs)

/-- Model of `Site.relabel` from lattice.py: `self.idx = labels[self.idx]`
and neighbours mapped elementwise through `labels`. -/
def Site.relabel (s : Site) (labels : List Int) : Option Site :=
  match pyGetI labels s.idx with
  | none => none
  | some newIdx =>
    match mapLabels labels s.neighbours with
    | none => none
    | some newNe => some ⟨newIdx, s.pos, newNe, s.hopping, s.attrs⟩

/-- The `for site in self.sites: site.relabel(labels)` loop of
`Lattice.relabel`. -/
def relabelSites (labels : List Int) : List Site → Option (List Site)
  | [] => some []
  | s :: rest =>
    match s.relabel labels with
    | none => none
    | some s' =>
      match relabelSites labels rest with
      | none => none
      | some rest' => some (s' :: rest')

/-- Model of `Lattice.relabel` from lattice.py: relabel every site, then
sort the sites ascending by the new index
(`self.sites.sort(key=lambda site: site.idx)`; Python's sort is stable, the
model uses insertion sort, which agrees with it on all the properties
stated in this file). -/
def Lattice.relabel (lat : Lattice) (labels : List Int) : Option Lattice :=
  match relabelSites labels lat.sites with
  | none => none
  | some sl => some ⟨lat.name, lat.comment, lat.nt,
      sl.insertionSort (fun a b => a.idx ≤ b.idx)⟩

/-! Connectivity of the neighbour graph. This is the hypothesis notion used
by the spec ("for any connected lattice"); it is not part of the Python
code. Two site positions are adjacent when either lists the other among
its neighbours; a lattice is connected when every site is reachable from
site 0. -/

/-- Neighbour ids of the site stored at position `a`. -/
def nbrIds (lat : Lattice) (a : Nat) : List Int :=
  (lat.sites.getD a default).neighbours

/-- Undirected single-step adjacency between storage positions `a` and `b`. -/
def adjacent (lat : Lattice) (a b : Nat) : Bool :=
  (nbrIds lat a).any (fun n => pyIdx lat.sites.length n == some b) ||
  (nbrIds lat b).any (fun n => pyIdx lat.sites.length n == some a)

/-- One expansion step of the set of reachable site positions. -/
def reachStep (lat : Lattice) (s : List Nat) : List Nat :=
  (List.range lat.sites.length).filter
    (fun b => s.contains b || s.any (fun a => adjacent lat a b))

/-- Positions reachable from site 0 in at most `k` steps. -/
def reachN (lat : Lattice) : Nat → List Nat
  | 0 => if lat.sites.length = 0 then [] else [0]
  | k + 1 => reachStep lat (reachN lat k)

/-- A lattice is connected when every site position is reachable from site
0 within `N` adjacency steps (which suffices for any connected graph). -/
def connectedLat (lat : Lattice) : Prop :=
  ∀ b < lat.sites.length, b ∈ reachN lat lat.sites.length

/-! Concrete example lattices used to settle the claims. -/

/-- Helper: the square root of 4. -/
theorem sqrt_four : Real.sqrt 4 = 2 := by
  rw [show (4 : ℝ) = 2 ^ 2 by norm_num, Real.sqrt_sq (by norm_num)]

/-- A connected three-site path `0 - 1 - 2` along the x axis. The spiral
walk starts in the middle, moves to one end and gets stuck. -/
def ex3 : Lattice :=
  ⟨"", "", 0, [⟨0, [-1, 0], [1], [1], []⟩, ⟨1, [0, 0], [0, 2], [1, 1], []⟩,
               ⟨2, [1, 0], [1], [1], []⟩]⟩

/-- A two-site connected lattice on which `label_graph` succeeds. -/
def exC1w : Lattice :=
  ⟨"", "", 0, [⟨0, [0, 0], [1], [1], []⟩, ⟨1, [2, 0], [0], [1], []⟩]⟩

/-- Four sites forming two disconnected pairs (`0 - 1` and `2 - 3`). -/
def exPairs : Lattice :=
  ⟨"", "", 0, [⟨0, [-2, 0], [1], [1], []⟩, ⟨1, [-1, 0], [0], [1], []⟩,
               ⟨2, [1, 0], [3], [1], []⟩, ⟨3, [2, 0], [2], [1], []⟩]⟩

instance (lat : Lattice) : Decidable (connectedLat lat) := by
  unfold connectedLat
  infer_instance

/-! Literal-evaluation helpers. -/

theorem toNatLit0 : ((0 : Int)).toNat = 0 := rfl

theorem toNatLit1 : ((1 : Int)).toNat = 1 := rfl

theorem toNatLit2 : ((2 : Int)).toNat = 2 := rfl

theorem toNatLit3 : ((3 : Int)).toNat = 3 := rfl

/-- C1 (amended): whenever `label_graph` returns successfully, the returned
labels are a permutation of `0, ..., N-1`. The original claim also asserted
that `label_graph` never fails on a connected lattice; that part is refuted
by `label_graph_fails_on_connected` below. -/
theorem label_graph_perm_of_ok (lat : Lattice) (method : String) (ls : List Int)
    (h : lat.label_graph method = .ok ls) :
    ls.Perm ((List.range lat.sites.length).map Int.ofNat) :=
  label_graph_ok_perm lat method ls h

/-- C1 witness: on the connected two-site lattice `exC1w`, `label_graph`
succeeds with `[0, 1]`, which is a permutation of `0..1`. -/
theorem label_graph_perm_of_ok_witness :
    exC1w.label_graph "innermost" = .ok [0, 1] ∧
    ([0, 1] : List Int).Perm ((List.range exC1w.sites.length).map Int.ofNat) := by
  have he : exC1w.label_graph "innermost" = .ok [0, 1] := by
    norm_num [Lattice.label_graph, Lattice.startState, Lattice.centre, labelLoop,
      labelStep, collectCands, select_next, select_innermost, argminL, vdiv, vsum,
      vadd, vdist, pyIdx, List.enum, List.enumFrom, exC1w, Real.sqrt_one,
      toNatLit0, toNatLit1, List.replicate_succ, List.set_cons_succ, List.set_cons_zero]
  exact ⟨he, label_graph_perm_of_ok exC1w "innermost" [0, 1] he⟩

/-- C1 counterexample: `ex3` is a connected lattice (a three-site path) on
which `label_graph` with the supported method "innermost" raises the stuck
error instead of returning a permutation: the walk starts at the middle
site, moves to one end and has no unvisited neighbour left. -/
theorem label_graph_fails_on_connected :
    connectedLat ex3 ∧ ex3.label_graph "innermost" = .error (.stuck 3) := by
  refine ⟨by decide, ?_⟩
  norm_num [Lattice.label_graph, Lattice.startState, Lattice.centre, labelLoop,
    labelStep, collectCands, select_next, select_innermost, argminL, vdiv, vsum,
    vadd, vdist, pyIdx, List.enum, List.enumFrom, ex3, Real.sqrt_one, Real.sqrt_zero,
    toNatLit0, toNatLit1, toNatLit2, List.replicate_succ, List.set_cons_succ,
    List.set_cons_zero]

/-- C2: on the four-site lattice made of two disconnected pairs, the spiral
walk labels exactly 2 sites (the first loop iteration, over `[1]`, succeeds
with 2 sites visited) and then fails; but the error message reports the
count `3` (`i+1` at loop index `i = 2`), not the number 2 of sites actually
labelled: the reported count is off by one. -/
theorem label_graph_stuck_count_off_by_one :
    exPairs.label_graph "innermost" = .error (.stuck 3) ∧
    (LatError.stuck 3).message =
      "Graph search got stuck. No neighbours to continue after labeling 3 sites" ∧
    (∃ st, labelLoop exPairs "innermost" exPairs.centre [1] exPairs.startState = .ok st ∧
      st.visited.count true = 2) := by
  refine ⟨?_, rfl, ⟨⟨0, [true, true, false, false], [1, 0, 0, 0]⟩, ?_, by decide⟩⟩
  · norm_num [Lattice.label_graph, Lattice.startState, Lattice.centre, labelLoop,
      labelStep, collectCands, select_next, select_innermost, argminL, vdiv, vsum,
      vadd, vdist, pyIdx, List.enum, List.enumFrom, exPairs, Real.sqrt_one, sqrt_four,
      toNatLit0, toNatLit1, toNatLit2, toNatLit3, List.replicate_succ,
      List.set_cons_succ, List.set_cons_zero]
  · norm_num [Lattice.startState, Lattice.centre, labelLoop,
      labelStep, collectCands, select_next, select_innermost, argminL, vdiv, vsum,
      vadd, vdist, pyIdx, List.enum, List.enumFrom, exPairs, Real.sqrt_one, sqrt_four,
      toNatLit0, toNatLit1, toNatLit2, toNatLit3, List.replicate_succ,
      List.set_cons_succ, List.set_cons_zero]

/-- C5 (amended): for every lattice on which the walk reaches the first
neighbour-selection step (the initial candidate set is nonempty), calling
`label_graph` with a method other than "innermost" and "anticlockwise"
raises the invalid-argument error whose message names the two supported
methods. The original claim said this for every lattice; it fails on a
one-site lattice, where the loop body never runs
(`label_graph_unknown_method_one_site`). -/
theorem label_graph_unknown_method (lat : Lattice) (method : String)
    (kept : List (Nat × Nat))
    (h1 : method ≠ "innermost") (h2 : method ≠ "anticlockwise")
    (h3 : collectCands lat.startState.visited
      (lat.sites.getD lat.startState.cur default).neighbours.enum = .ok kept)
    (h4 : kept ≠ []) :
    lat.label_graph method = .error (.unknownMethod method) ∧
    (LatError.unknownMethod method).message =
      "Unknown traveral method: " ++ method
        ++ ". Supported methods are: innermost, anticlockwise" := by
  refine ⟨?_, rfl⟩
  obtain ⟨p, t, rfl⟩ := List.exists_cons_of_ne_nil h4
  obtain ⟨hplt, hpf⟩ := collectCands_ok_mem h3 p (List.mem_cons_self p t)
  have hvlen : lat.startState.visited.length = lat.sites.length := by
    simp [Lattice.startState]
  have hN2 : 2 ≤ lat.sites.length := by
    rw [hvlen] at hplt
    rcases Nat.lt_or_ge lat.sites.length 2 with hlt | hge
    · interval_cases hc : lat.sites.length
      · omega
      · exfalso
        have hp0 : p.2 = 0 := by omega
        have hc0 : argminL (lat.sites.map fun s => vdist lat.centre s.pos) = 0 := by
          have hne : (lat.sites.map fun s => vdist lat.centre s.pos) ≠ [] := by
            simp only [ne_eq, List.map_eq_nil_iff]
            intro hnil
            rw [hnil] at hc
            simp at hc
          have := argminL_lt_length _ hne
          simp only [List.length_map, hc] at this
          omega
        rw [Lattice.startState] at hpf
        simp only [hc0, hp0] at hpf
        rw [hc] at hpf
        rw [show (List.replicate 1 false).set 0 true = [true] from rfl] at hpf
        simp at hpf
    · exact hge
  have hstep : labelStep lat method lat.centre 1 lat.startState
      = .error (.unknownMethod method) := by
    unfold labelStep
    rw [h3]
    have hsel : select_next method ((p :: t).map fun jm =>
        (lat.sites.getD jm.2 default).pos) (lat.sites.getD lat.startState.cur default)
        lat.centre = .error (.unknownMethod method) := by
      unfold select_next
      rw [if_neg h1, if_neg h2]
    simp only [List.isEmpty_cons, hsel]
    simp
  have hN0 : ¬ lat.sites.length = 0 := by omega
  obtain ⟨k, hk⟩ : ∃ k, lat.sites.length - 1 = k + 1 := ⟨lat.sites.length - 2, by omega⟩
  unfold Lattice.label_graph
  rw [if_neg hN0, hk, List.range'_succ, labelLoop, hstep]

/-- A one-site lattice with no neighbours, used to refute the unqualified
form of claim C5. -/
def oneSiteC5 : Lattice := ⟨"", "", 0, [⟨0, [0, 0], [], [], []⟩]⟩

/-- C5 counterexample: on a one-site lattice, `label_graph` with the unknown
method string "bogus" does not raise any error: it returns the label list
`[0]`, because the labelling loop body (which contains the method dispatch)
never runs. -/
theorem label_graph_unknown_method_one_site :
    ("bogus" ≠ "innermost" ∧ "bogus" ≠ "anticlockwise") ∧
    oneSiteC5.label_graph "bogus" = .ok [0] := by
  refine ⟨⟨by decide, by decide⟩, ?_⟩
  norm_num [Lattice.label_graph, Lattice.startState, Lattice.centre, labelLoop,
    labelStep, collectCands, select_next, select_innermost, argminL, vdiv, vsum,
    vadd, vdist, pyIdx, List.enum, List.enumFrom, oneSiteC5, Real.sqrt_zero,
    toNatLit0, toNatLit1, List.replicate_succ, List.set_cons_succ, List.set_cons_zero]

/-- A two-site lattice whose walk reaches the method dispatch, for the C5
witness. -/
def exC5w : Lattice :=
  ⟨"", "", 0, [⟨0, [0, 0], [1], [1], []⟩, ⟨1, [2, 0], [0], [1], []⟩]⟩

/-- C5 witness: on `exC5w` with the unknown method "bogus", `label_graph`
raises the invalid-argument error naming both supported methods. -/
theorem label_graph_unknown_method_witness :
    ("bogus" : String) ≠ "innermost" ∧ ("bogus" : String) ≠ "anticlockwise" ∧
    collectCands exC5w.startState.visited
      (exC5w.sites.getD exC5w.startState.cur default).neighbours.enum = .ok [(0, 1)] ∧
    ([(0, 1)] : List (Nat × Nat)) ≠ [] ∧
    exC5w.label_graph "bogus" = .error (.unknownMethod "bogus") ∧
    (LatError.unknownMethod "bogus").message =
      "Unknown traveral method: bogus. Supported methods are: innermost, anticlockwise" := by
  have hc : collectCands exC5w.startState.visited
      (exC5w.sites.getD exC5w.startState.cur default).neighbours.enum = .ok [(0, 1)] := by
    norm_num [Lattice.startState, Lattice.centre, collectCands, argminL, vdiv, vsum,
      vadd, vdist, pyIdx, List.enum, List.enumFrom, exC5w, Real.sqrt_one,
      toNatLit0, toNatLit1, List.replicate_succ, List.set_cons_succ, List.set_cons_zero]
  have happ := label_graph_unknown_method exC5w "bogus" [(0, 1)] (by decide) (by decide)
    hc (by decide)
  exact ⟨by decide, by decide, hc, by decide, happ.1, by decide⟩

/-! Lemmas about the relabel operation. -/

theorem mapLabels_some_forall {labels : List Int} :
    ∀ {l l' : List Int}, mapLabels labels l = some l' →
      List.Forall₂ (fun n v => pyGetI labels n = some v) l l'
  | [], _, h => by
    cases h
    exact List.Forall₂.nil
  | n :: rest, l', h => by
    rw [mapLabels] at h
    split at h
    · cases h
    · rename_i v hv
      split at h
      · cases h
      · rename_i vs hvs
        cases h
        exact List.Forall₂.cons hv (mapLabels_some_forall hvs)

theorem site_relabel_some {s t : Site} {labels : List Int}
    (h : s.relabel labels = some t) :
    pyGetI labels s.idx = some t.idx ∧
    mapLabels labels s.neighbours = some t.neighbours ∧
    t.pos = s.pos ∧ t.hopping = s.hopping ∧ t.attrs = s.attrs := by
  unfold Site.relabel at h
  split at h
  · cases h
  · rename_i newIdx hi
    split at h
    · cases h
    · rename_i newNe hn
      cases h
      exact ⟨hi, hn, rfl, rfl, rfl⟩

theorem relabelSites_forall {labels : List Int} :
    ∀ {l l' : List Site}, relabelSites labels l = some l' →
      List.Forall₂ (fun s t => s.relabel labels = some t) l l'
  | [], _, h => by
    cases h
    exact List.Forall₂.nil
  | s :: rest, l', h => by
    rw [relabelSites] at h
    split at h
    · cases h
    · rename_i s' hs
      split at h
      · cases h
      · rename_i rest' hr
        cases h
        exact List.Forall₂.cons hs (relabelSites_forall hr)

theorem forall₂_map_eq {α β γ : Type} (f : β → γ) (g : α → γ)
    {l : List α} {l' : List β} (h : List.Forall₂ (fun a b => f b = g a) l l') :
    l'.map f = l.map g := by
  induction h with
  | nil => rfl
  | cons hab _ ih => simp only [List.map_cons, hab, ih]

theorem pyGetI_ofNat (labels : List Int) (k : Nat) (h : k < labels.length) :
    pyGetI labels (Int.ofNat k) = some (labels.getD k 0) := by
  unfold pyGetI
  have hp : pyIdx labels.length (Int.ofNat k) = some k := by
    unfold pyIdx
    rw [if_pos ⟨Int.ofNat_nonneg k, Int.ofNat_lt.mpr h⟩]
    simp
  rw [hp]

instance : IsTotal Site (fun a b => a.idx ≤ b.idx) :=
  ⟨fun a b => Int.le_total a.idx b.idx⟩

instance : IsTrans Site (fun a b => a.idx ≤ b.idx) :=
  ⟨fun _ _ _ h1 h2 => le_trans h1 h2⟩

/-- C3 (amended): for every lattice whose stored site indices equal the
storage positions (`0..N-1` in order), if `label_graph` succeeds and
`relabel` with the returned labels succeeds, the resulting lattice's sites,
iterated in storage order, have indices exactly `0..N-1` ascending; the
sites are (a permutation, via sorting, of) the original sites with the
neighbour lists mapped elementwise through the labels. The original
unqualified claim fails for lattices whose stored indices do not match the
storage positions (`relabel_after_label_graph_not_ascending`). -/
theorem label_graph_relabel_ascending (lat : Lattice) (method : String)
    (labels : List Int) (lat' : Lattice)
    (hidx : lat.sites.map Site.idx = (List.range lat.sites.length).map Int.ofNat)
    (hlg : lat.label_graph method = .ok labels)
    (hrl : lat.relabel labels = some lat') :
    lat'.sites.map Site.idx = (List.range lat.sites.length).map Int.ofNat ∧
    ∃ sl, relabelSites labels lat.sites = some sl ∧ lat'.sites.Perm sl ∧
      List.Forall₂ (fun s t => List.Forall₂ (fun n v => pyGetI labels n = some v)
        s.neighbours t.neighbours) lat.sites sl := by
  have hperm := label_graph_ok_perm lat method labels hlg
  have hlen : labels.length = lat.sites.length := by
    have := hperm.length_eq
    simpa using this
  unfold Lattice.relabel at hrl
  split at hrl
  · cases hrl
  · rename_i sl hsl
    cases hrl
    have hfa := relabelSites_forall hsl
    have hidxfa : List.Forall₂ (fun s t => Site.idx t = (pyGetI labels s.idx).getD 0)
        lat.sites sl :=
      hfa.imp (fun _ _ hab => by
        obtain ⟨h1, _, _, _, _⟩ := site_relabel_some hab
        rw [h1]
        rfl)
    have hmapidx : sl.map Site.idx
        = lat.sites.map (fun s => (pyGetI labels s.idx).getD 0) :=
      forall₂_map_eq _ _ hidxfa
    have hmapidx2 : sl.map Site.idx = labels := by
      rw [hmapidx,
        show (fun s : Site => (pyGetI labels s.idx).getD 0)
          = (fun v : Int => (pyGetI labels v).getD 0) ∘ Site.idx from rfl,
        ← List.map_map, hidx, List.map_map]
      have hco : ∀ k ∈ List.range lat.sites.length,
          ((fun v : Int => (pyGetI labels v).getD 0) ∘ Int.ofNat) k
            = labels.getD k 0 := by
        intro k hk
        have hklt : k < labels.length := by
          rw [hlen]
          simpa using List.mem_range.mp hk
        simp only [Function.comp]
        rw [pyGetI_ofNat labels k hklt]
        rfl
      rw [List.map_congr_left hco, ← hlen, map_getD_range]
    have hpermsort := List.perm_insertionSort (fun a b : Site => a.idx ≤ b.idx) sl
    constructor
    · have hsorted : List.Sorted (fun a b : Site => a.idx ≤ b.idx)
          (sl.insertionSort fun a b => a.idx ≤ b.idx) :=
        List.sorted_insertionSort _ sl
      have hsorted2 : List.Sorted (· ≤ ·)
          ((sl.insertionSort fun a b => a.idx ≤ b.idx).map Site.idx) :=
        List.Pairwise.map Site.idx (fun _ _ hab => hab) hsorted
      have hpermidx : ((sl.insertionSort fun a b => a.idx ≤ b.idx).map Site.idx).Perm
          ((List.range lat.sites.length).map Int.ofNat) :=
        (hpermsort.map Site.idx).trans (by rw [hmapidx2]; exact hperm)
      have hsortedR : List.Sorted (· ≤ ·)
          ((List.range lat.sites.length).map Int.ofNat) :=
        List.Pairwise.map Int.ofNat
          (fun a b hab => Int.ofNat_le.mpr (Nat.le_of_lt hab))
          (List.pairwise_lt_range lat.sites.length)
      exact List.eq_of_perm_of_sorted hpermidx hsorted2 hsortedR
    · exact ⟨sl, hsl, hpermsort,
        hfa.imp (fun _ _ hab => mapLabels_some_forall (site_relabel_some hab).2.1)⟩

/-- Two-site lattice with indices matching storage order, for the C3
witness. -/
def exC3w : Lattice :=
  ⟨"", "", 0, [⟨0, [0, 0], [1], [1], []⟩, ⟨1, [2, 0], [0], [1], []⟩]⟩

/-- C3 witness: on `exC3w`, `label_graph` returns `[0, 1]`, `relabel`
returns the lattice unchanged, and the relabelled site indices are `0, 1`
ascending. -/
theorem label_graph_relabel_ascending_witness :
    exC3w.sites.map Site.idx = (List.range exC3w.sites.length).map Int.ofNat ∧
    exC3w.label_graph "innermost" = .ok [0, 1] ∧
    exC3w.relabel [0, 1] = some exC3w ∧
    (exC3w.sites.map Site.idx = (List.range exC3w.sites.length).map Int.ofNat ∧
     ∃ sl, relabelSites [0, 1] exC3w.sites = some sl ∧ exC3w.sites.Perm sl ∧
       List.Forall₂ (fun s t => List.Forall₂ (fun n v => pyGetI [0, 1] n = some v)
         s.neighbours t.neighbours) exC3w.sites sl) := by
  have he : exC3w.label_graph "innermost" = .ok [0, 1] := by
    norm_num [Lattice.label_graph, Lattice.startState, Lattice.centre, labelLoop,
      labelStep, collectCands, select_next, select_innermost, argminL, vdiv, vsum,
      vadd, vdist, pyIdx, List.enum, List.enumFrom, exC3w, Real.sqrt_one,
      toNatLit0, toNatLit1, List.replicate_succ, List.set_cons_succ, List.set_cons_zero]
  have hr : exC3w.relabel [0, 1] = some exC3w := rfl
  exact ⟨by decide, he, hr,
    label_graph_relabel_ascending exC3w "innermost" [0, 1] exC3w (by decide) he hr⟩

/-- Two sites that both carry stored index 0, used to refute the
unqualified form of claim C3. -/
def exDup : Lattice :=
  ⟨"", "", 0, [⟨0, [0, 0], [1], [1], []⟩, ⟨0, [0, 0], [0], [1], []⟩]⟩

/-- C3 counterexample: on `exDup` (two sites both storing index 0),
`label_graph` succeeds with the permutation `[0, 1]`, but applying
`relabel` with it gives both sites the index `labels[0] = 0`: the
relabelled lattice's indices are `[0, 0]`, not `0..N-1` ascending. -/
theorem relabel_after_label_graph_not_ascending :
    exDup.label_graph "innermost" = .ok [0, 1] ∧
    (exDup.relabel [0, 1]).map (fun l => l.sites.map Site.idx) = some [0, 0] := by
  constructor
  · norm_num [Lattice.label_graph, Lattice.startState, Lattice.centre, labelLoop,
      labelStep, collectCands, select_next, select_innermost, argminL, vdiv, vsum,
      vadd, vdist, pyIdx, List.enum, List.enumFrom, exDup, Real.sqrt_zero,
      toNatLit0, toNatLit1, List.replicate_succ, List.set_cons_succ, List.set_cons_zero]
  · decide

/-- C9: `Lattice.relabel` only changes site indices, neighbour ids and the
storage order: whenever it succeeds, the lattice name, comment and `nt` are
unchanged, and the resulting sites are a permutation of the relabelled
originals, which keep their position, hopping list, free-form attributes
and neighbour-list length (hence the neighbours/hopping positional pairing)
intact. -/
theorem relabel_frame (lat : Lattice) (labels : List Int) (lat' : Lattice)
    (h : lat.relabel labels = some lat') :
    lat'.name = lat.name ∧ lat'.comment = lat.comment ∧ lat'.nt = lat.nt ∧
    ∃ sl, relabelSites labels lat.sites = some sl ∧ lat'.sites.Perm sl ∧
      List.Forall₂ (fun s t => t.pos = s.pos ∧ t.hopping = s.hopping ∧
        t.attrs = s.attrs ∧ t.neighbours.length = s.neighbours.length ∧
        t.hopping.length = s.hopping.length) lat.sites sl := by
  unfold Lattice.relabel at h
  split at h
  · cases h
  · rename_i sl hsl
    cases h
    refine ⟨rfl, rfl, rfl, sl, hsl, List.perm_insertionSort _ sl, ?_⟩
    exact (relabelSites_forall hsl).imp (fun _ _ hab => by
      obtain ⟨_, hne, hp, hh, hat⟩ := site_relabel_some hab
      exact ⟨hp, hh, hat, (mapLabels_some_forall hne).length_eq.symm,
        by rw [hh]⟩)

/-- Concrete lattice for the C9 witness, with nontrivial metadata, hopping
values and attributes. -/
def exC9 : Lattice :=
  ⟨"lat", "c", 4, [⟨1, [3, 0], [0], [7], [("color", "red")]⟩,
                   ⟨0, [4, 0], [1], [9], []⟩]⟩

/-- Result of relabelling `exC9` with `[1, 0]`. -/
def exC9r : Lattice :=
  ⟨"lat", "c", 4, [⟨0, [3, 0], [1], [7], [("color", "red")]⟩,
                   ⟨1, [4, 0], [0], [9], []⟩]⟩

/-- C9 witness: relabelling `exC9` with the permutation `[1, 0]` preserves
the metadata and every site's position, hopping and attributes. -/
theorem relabel_frame_witness :
    exC9.relabel [1, 0] = some exC9r ∧
    (exC9r.name = exC9.name ∧ exC9r.comment = exC9.comment ∧ exC9r.nt = exC9.nt ∧
     ∃ sl, relabelSites [1, 0] exC9.sites = some sl ∧ exC9r.sites.Perm sl ∧
       List.Forall₂ (fun s t => t.pos = s.pos ∧ t.hopping = s.hopping ∧
         t.attrs = s.attrs ∧ t.neighbours.length = s.neighbours.length ∧
         t.hopping.length = s.hopping.length) exC9.sites sl) :=
  ⟨rfl, relabel_frame exC9 [1, 0] exC9r rfl⟩

/-! File input and output (fileio.py). The textual layer is abstracted:
a writegraph2d/3d file is modelled as its header dimension plus one record
per line holding the 1-based site id, the coordinates and the 1-based
neighbour ids. Number formatting round-trips exactly (Python `str`/`float`
round-trip), so tokens are carried as numbers. -/

/-- Errors raised by fileio.py. -/
inductive ParseError where
  | badHeader : ParseError
  | lengthMismatch : ParseError
  | siteIndexOutOfRange (i j : Int) : ParseError
  | indexError : ParseError
deriving DecidableEq

/-- A writegraphnd file: header dimension and one record per site line. -/
structure WndFile where
  dim : Nat
  lines : List (Int × List ℝ × List Int)

/-- Model of `write_wnd` from fileio.py: the header dimension is the length
of the first site's position (`lat.sites[0]`, an `IndexError` on an empty
lattice, hence `Option`); each line holds `site.idx+1`, the coordinates and
the neighbour ids each `+1`. -/
def write_wnd (lat : Lattice) : Option WndFile :=
  match lat.sites with
  | [] => none
  | s0 :: _ => some ⟨s0.pos.length,
      lat.sites.map fun s => (s.idx + 1, s.pos, s.neighbours.map (· + 1))⟩

/-- Model of `_wnd_to_lattice` from fileio.py: build a lattice from parsed
records, with every hopping strength set to 1. -/
def _wnd_to_lattice (graph : List (Int × List ℝ × List Int)) : Lattice :=
  ⟨"", "", 0, graph.map fun g => ⟨g.1, g.2.1, g.2.2, List.replicate g.2.2.length 1, []⟩⟩

/-- Model of `read_w3d` from fileio.py: check the `>>writegraph3d<<` header,
then parse each line, subtracting 1 from the site id and the neighbour ids. -/
def read_w3d (f : WndFile) : Except ParseError Lattice :=
  if f.dim = 3 then
    .ok (_wnd_to_lattice (f.lines.map fun l => (l.1 - 1, l.2.1, l.2.2.map (· - 1))))
  else .error .badHeader

/-- Model of `read_w2d` from fileio.py, identical to `read_w3d` except for
the expected header. -/
def read_w2d (f : WndFile) : Except ParseError Lattice :=
  if f.dim = 2 then
    .ok (_wnd_to_lattice (f.lines.map fun l => (l.1 - 1, l.2.1, l.2.2.map (· - 1))))
  else .error .badHeader

/-- The `hopping` argument of `_parse_yaml`: either a scalar applied to
every edge or an explicit list. -/
inductive HopSpec where
  | scalar (h : ℝ)
  | list (hs : List ℝ)

/-- Model of `_append_adj_hop` from fileio.py: append a neighbour/hopping
pair unless the neighbour id is already present. -/
def _append_adj_hop (site : Site) (neigh : Int) (hop : ℝ) : Site :=
  if neigh ∈ site.neighbours then site
  else ⟨site.idx, site.pos, site.neighbours ++ [neigh], site.hopping ++ [hop],
    site.attrs⟩

/-- Python assignment `lat.sites[n] = f(lat.sites[n])` with wrap-around
index semantics (`none` models an `IndexError`). -/
def pySetSite (sites : List Site) (n : Int) (f : Site → Site) : Option (List Site) :=
  match pyIdx sites.length n with
  | none => none
  | some m => some (sites.set m (f (sites.getD m default)))

/-- The adjacency loop of `_parse_yaml`:
`for (i, j), hop in zip(adjacency, hopping)` with the bounds check
`i > len(hopping) or j > len(hopping)` exactly as written in the source
(the bound is the length of the hopping list, not the number of sites). -/
def applyAdj (hopLen : Nat) : List ((Int × Int) × ℝ) → List Site →
    Except ParseError (List Site)
  | [], sites => .ok sites
  | ((i, j), hop) :: rest, sites =>
    if i > (hopLen : Int) ∨ j > (hopLen : Int) then .error (.siteIndexOutOfRange i j)
    else
      match pySetSite sites i (fun s => _append_adj_hop s j hop) with
      | none => .error .indexError
      | some sites' =>
        match pySetSite sites' j (fun s => _append_adj_hop s i hop) with
        | none => .error .indexError
        | some sites'' => applyAdj hopLen rest sites''

/-- Model of `_parse_yaml` from fileio.py: normalize the hopping argument,
build the sites from the positions, then fill in the neighbour and hopping
lists from the adjacency pairs. -/
def _parse_yaml (nt : Int) (adjacency : List (Int × Int)) (hopping : HopSpec)
    (positions : List (List ℝ)) (name comment : String) :
    Except ParseError Lattice :=
  match hopping with
  | .list hs =>
    if adjacency.length ≠ hs.length then .error .lengthMismatch
    else
      match applyAdj hs.length (adjacency.zip hs)
          (positions.enum.map fun ip => ⟨ip.1, ip.2, [], [], []⟩) with
      | .error e => .error e
      | .ok sites => .ok ⟨name, comment, nt, sites⟩
  | .scalar hval =>
    match applyAdj adjacency.length
        (adjacency.zip (List.replicate adjacency.length hval))
        (positions.enum.map fun ip => ⟨ip.1, ip.2, [], [], []⟩) with
    | .error e => .error e
    | .ok sites => .ok ⟨name, comment, nt, sites⟩

/-- C6: the adjacency bounds check of `_parse_yaml` compares against the
length of the hopping list with a strict `>` and never checks negative
ids, so the out-of-range pair `[0, -1]` (with 2 positions) is accepted:
the loader returns a lattice whose site 0 references the invalid neighbour
id `-1` (and `-1` wraps to the last site for the reverse edge), instead of
raising the documented fatal "Site index out of range" error. -/
theorem parse_yaml_accepts_negative_index :
    (_parse_yaml 0 [((0 : Int), (-1 : Int))] (.scalar 1) [[0, 0], [1, 0]] "" "").toOption.map
      (fun l => l.sites.map Site.neighbours) = some [[-1], [0]] := by
  decide

/-- C7: writing a lattice with `write_wnd` and reading the result back with
the reader matching the header dimension yields a lattice with identical
positions per site, identical neighbour lists per site, and every hopping
list collapsed to all 1 values, regardless of the original hopping. -/
theorem wnd_roundtrip (lat : Lattice) (f : WndFile) (hw : write_wnd lat = some f)
    (hdim : ∀ s ∈ lat.sites, s.pos.length = f.dim) :
    (f.dim = 3 → ∃ lat', read_w3d f = .ok lat' ∧
      lat'.sites.map Site.pos = lat.sites.map Site.pos ∧
      lat'.sites.map Site.neighbours = lat.sites.map Site.neighbours ∧
      ∀ s' ∈ lat'.sites, s'.hopping = List.replicate s'.neighbours.length 1) ∧
    (f.dim = 2 → ∃ lat', read_w2d f = .ok lat' ∧
      lat'.sites.map Site.pos = lat.sites.map Site.pos ∧
      lat'.sites.map Site.neighbours = lat.sites.map Site.neighbours ∧
      ∀ s' ∈ lat'.sites, s'.hopping = List.replicate s'.neighbours.length 1) := by
  have hlines : f.lines = lat.sites.map fun s => (s.idx + 1, s.pos, s.neighbours.map (· + 1)) := by
    unfold write_wnd at hw
    split at hw
    · cases hw
    · cases hw
      rfl
  have hmain : ∀ lat', lat' = _wnd_to_lattice (f.lines.map fun l =>
        (l.1 - 1, l.2.1, l.2.2.map (· - 1))) →
      lat'.sites.map Site.pos = lat.sites.map Site.pos ∧
      lat'.sites.map Site.neighbours = lat.sites.map Site.neighbours ∧
      ∀ s' ∈ lat'.sites, s'.hopping = List.replicate s'.neighbours.length 1 := by
    intro lat' hlat'
    have hsites : lat'.sites = lat.sites.map fun s =>
        (⟨s.idx + 1 - 1, s.pos, (s.neighbours.map (· + 1)).map (· - 1),
          List.replicate ((s.neighbours.map (· + 1)).map (· - 1)).length 1, []⟩ : Site) := by
      rw [hlat', hlines]
      unfold _wnd_to_lattice
      simp [List.map_map]
    refine ⟨?_, ?_, ?_⟩
    · rw [hsites, List.map_map]
      rfl
    · rw [hsites, List.map_map]
      refine List.map_congr_left ?_
      intro s _
      simp only [Function.comp, List.map_map]
      have : ∀ n ∈ s.neighbours, ((fun x => x - 1) ∘ fun x => x + 1) n = id n := by
        intro n _
        simp
      rw [List.map_congr_left this, List.map_id]
    · rw [hsites]
      intro s' hs'
      obtain ⟨s, _, rfl⟩ := List.mem_map.mp hs'
      rfl
  constructor
  · intro h3
    refine ⟨_, ?_, hmain _ rfl⟩
    unfold read_w3d
    rw [if_pos h3]
  · intro h2
    refine ⟨_, ?_, hmain _ rfl⟩
    unfold read_w2d
    rw [if_pos h2]

/-- A 3D lattice with non-unit hopping values, for the C7 witness. -/
def exC7 : Lattice :=
  ⟨"n", "c", 7, [⟨0, [0, 0, 0], [1], [5], []⟩, ⟨1, [1, 0, 0], [0], [7], []⟩]⟩

/-- The file produced by writing `exC7`. -/
def exC7f : WndFile :=
  ⟨3, [(1, [0, 0, 0], [2]), (2, [1, 0, 0], [1])]⟩

/-- C7 witness: writing `exC7` (hopping values 5 and 7) and reading the
file back with `read_w3d` preserves positions and neighbours and collapses
all hopping values to 1. -/
theorem wnd_roundtrip_witness :
    write_wnd exC7 = some exC7f ∧ (∀ s ∈ exC7.sites, s.pos.length = exC7f.dim) ∧
    (∃ lat', read_w3d exC7f = .ok lat' ∧
      lat'.sites.map Site.pos = exC7.sites.map Site.pos ∧
      lat'.sites.map Site.neighbours = exC7.sites.map Site.neighbours ∧
      ∀ s' ∈ lat'.sites, s'.hopping = List.replicate s'.neighbours.length 1) :=
  ⟨rfl, by decide, (wnd_roundtrip exC7 exC7f rfl (by decide)).1 rfl⟩

/-- C4: the claim says the tie-break angle is normalized into the half-open
interval `(-π, π]`. At `p1 = (1, 0)`, `p2 = (-1, 0)` the difference of the
two `arctan2` values is exactly `π`, and the implemented normalization
`(d + π) % (2π) - π` returns `-π`: the result lies in `[-π, π)`, and the
boundary value `π` documented by the code's own docstring is instead
returned as `-π`. -/
theorem angle_at_pi_is_neg_pi :
    angle [(1 : ℝ), 0] [(-1 : ℝ), 0] = -Real.pi ∧
    ¬ (-Real.pi < angle [(1 : ℝ), 0] [(-1 : ℝ), 0]) := by
  have h1 : arctan2 0 (-1) = Real.pi := by
    unfold arctan2
    rw [show (⟨-1, 0⟩ : ℂ) = (-1 : ℂ) by apply Complex.ext <;> simp]
    exact Complex.arg_neg_one
  have h2 : arctan2 0 1 = 0 := by
    unfold arctan2
    rw [show (⟨1, 0⟩ : ℂ) = (1 : ℂ) by apply Complex.ext <;> simp]
    exact Complex.arg_one
  have key : angle [(1 : ℝ), 0] [(-1 : ℝ), 0] = -Real.pi := by
    unfold angle
    simp only [List.getD_cons_succ, List.getD_cons_zero]
    rw [h1, h2, sub_zero]
    unfold fmod
    rw [show Real.pi + Real.pi = 2 * Real.pi by ring]
    rw [div_self (ne_of_gt (by positivity)), Int.floor_one]
    push_cast
    ring
  exact ⟨key, by rw [key]; exact lt_irrefl _⟩

end Latgraph
